import Mathlib

/-!
Verification development for the forms-for-devs repository.

Shallow embedding of the core pure functions:
  * the submit-time validator `validateValue` (both of its copies:
    `src/components/preview/FormRenderer.tsx` and `src/preview/FormRenderer.tsx`),
  * the JSON Schema projector `generateJsonSchema` / `fieldToJsonSchema`
    (`lib/schema-generator.ts` section of `src/lib/storage.ts`),
  * the component exporter helpers `makeSafeComponentName`, `safeIdentifier`,
    `toPascalCase`, `escapeTemplateString`
    (`lib/exporters/react-ts.ts` section of `src/lib/storage.ts`).

Modelling conventions:
  * JavaScript numbers are modelled as rationals; the builtin string
    coercion `Number(x)` is modelled by `parseJsNumber` on the decimal
    grammar (sign, digits, fraction, exponent, empty string, whitespace
    trimming).  NaN results are `none`.  Hexadecimal and Infinity forms
    of the builtin are outside the model; no claim depends on them.
  * The builtin `new RegExp(p)` / `re.test(s)` pair is an explicit
    parameter `compile : String -> Option (String -> Bool)`: `none`
    models a pattern whose compilation throws (caught by the source).
  * String length is codepoint length (the sources are compared on
    ASCII inputs, where this coincides with JS UTF-16 length).
  * A JavaScript exception is an `Except.error`.
-/

/-- The closed `FieldType` union from `lib/form-types`. -/
inductive FieldType where
  | text
  | textarea
  | email
  | number
  | date
  | select
  | checkbox
deriving DecidableEq

/-- Runtime values a rendered form can hand to the validator
(strings, numbers, booleans, `null`, `undefined`). -/
inductive Value where
  | str (s : String)
  | num (q : ℚ)
  | bool (b : Bool)
  | null
  | undef
deriving DecidableEq

/-- One `{label, value}` entry of a select field's options. -/
structure SelectOption where
  label : String
  value : String
deriving DecidableEq

/-- The `FieldRules` bag as typed in both renderer files: every key optional. -/
structure FieldRules where
  minLength : Option ℚ := none
  maxLength : Option ℚ := none
  pattern : Option String := none
  integer : Option Bool := none
  min : Option ℚ := none
  max : Option ℚ := none
  options : Option (List SelectOption) := none
deriving DecidableEq

/-- A `Field` as the renderers consume it: `rules` is optional
(`rules?: FieldRules` in `lib/form-types`). -/
structure RField where
  name : String
  label : String
  type : FieldType
  required : Bool := false
  rules : Option FieldRules := none

/-- Digit run to a natural number, as positional decimal. -/
def digitsToNat (ds : List Char) : Nat :=
  ds.foldl (fun acc c => 10 * acc + (c.toNat - 48)) 0

/-- Split a leading run of decimal digits from the rest. -/
def takeDigits (cs : List Char) : List Char × List Char :=
  (cs.takeWhile Char.isDigit, cs.dropWhile Char.isDigit)

/-- Exponent part of the JS decimal number grammar: empty, or
`e`/`E` followed by an optionally signed nonempty digit run. -/
def parseExpPart : List Char → Option Int
  | [] => some 0
  | c :: rest =>
    if c = 'e' ∨ c = 'E' then
      match rest with
      | '+' :: ds =>
        if ds ≠ [] ∧ ds.all Char.isDigit then some (Int.ofNat (digitsToNat ds)) else none
      | '-' :: ds =>
        if ds ≠ [] ∧ ds.all Char.isDigit then some (-(Int.ofNat (digitsToNat ds))) else none
      | ds =>
        if ds ≠ [] ∧ ds.all Char.isDigit then some (Int.ofNat (digitsToNat ds)) else none
    else none

/-- Mantissa of the JS decimal number grammar: `digits`, `digits.digits`,
`digits.`, or `.digits`; at least one digit overall. -/
def parseMantissa (cs : List Char) : Option (ℚ × List Char) :=
  let ip := takeDigits cs
  match ip.2 with
  | '.' :: rest2 =>
    let fp := takeDigits rest2
    if ip.1 = [] ∧ fp.1 = [] then none
    else some ((digitsToNat ip.1 : ℚ) + (digitsToNat fp.1 : ℚ) / ((10 : ℚ) ^ fp.1.length), fp.2)
  | _ => if ip.1 = [] then none else some ((digitsToNat ip.1 : ℚ), ip.2)

/-- Apply a decimal exponent to a mantissa. -/
def applyExp (m : ℚ) (e : Int) : ℚ :=
  if 0 ≤ e then m * (10 : ℚ) ^ e.toNat else m / (10 : ℚ) ^ (-e).toNat

/-- Unsigned part of the JS decimal number grammar. -/
def parseUnsigned (cs : List Char) : Option ℚ :=
  match parseMantissa cs with
  | some me =>
    match parseExpPart me.2 with
    | some e => some (applyExp me.1 e)
    | none => none
  | none => none

/-- Optionally signed JS decimal number. -/
def parseSigned (cs : List Char) : Option ℚ :=
  match cs with
  | '+' :: rest => parseUnsigned rest
  | '-' :: rest => (parseUnsigned rest).map (fun q => -q)
  | _ => parseUnsigned cs

/-- The builtin `trim`: strip leading and trailing whitespace. -/
def trimJs (s : String) : String :=
  String.mk ((s.toList.dropWhile Char.isWhitespace).reverse.dropWhile Char.isWhitespace).reverse

/-- Model of the builtin `Number(s)` on strings: trim whitespace, the
empty string is `0`, otherwise the decimal grammar; `none` is NaN. -/
def parseJsNumber (s : String) : Option ℚ :=
  let t := trimJs s
  if t = "" then some 0 else parseSigned t.toList

/-- Model of `Number(value)` on the runtime values the renderer sees;
`none` is NaN. -/
def toNumber : Value → Option ℚ
  | Value.str s => parseJsNumber s
  | Value.num q => some q
  | Value.bool b => some (if b then 1 else 0)
  | Value.null => some 0
  | Value.undef => none

/-- How a JS number appears inside a template-literal message
(integers print without a fractional part). -/
def fmtNum (q : ℚ) : String :=
  if q.den = 1 then toString q.num else toString q

/-- The emptiness test of the number branch and of the non-checkbox
required check: `value === "" || value == null`. -/
def isBlank : Value → Bool
  | Value.str s => s = ""
  | Value.null => true
  | Value.undef => true
  | _ => false

/-- The required check's emptiness: for checkbox `value !== true`,
otherwise `value === "" || value == null`. -/
def isEmptyVal (t : FieldType) (v : Value) : Bool :=
  if t = FieldType.checkbox then decide (v ≠ Value.bool true) else isBlank v

/-- The three text-like field types sharing one validation branch. -/
def isTextLike : FieldType → Bool
  | FieldType.text => true
  | FieldType.textarea => true
  | FieldType.email => true
  | _ => false

/-- First-violation-wins chaining of the sequential early returns. -/
def firstSome (a b : Option String) : Option String :=
  match a with
  | some m => some m
  | none => b

/-- `if (rules.minLength != null && value.length < rules.minLength)`. -/
def checkMinLength (label : String) (rules : FieldRules) (s : String) : Option String :=
  match rules.minLength with
  | some m =>
    if (s.length : ℚ) < m then
      some (label ++ " must be at least " ++ fmtNum m ++ " characters.")
    else none
  | none => none

/-- `if (rules.maxLength != null && value.length > rules.maxLength)`. -/
def checkMaxLength (label : String) (rules : FieldRules) (s : String) : Option String :=
  match rules.maxLength with
  | some m =>
    if (s.length : ℚ) > m then
      some (label ++ " must be at most " ++ fmtNum m ++ " characters.")
    else none
  | none => none

/-- `if (rules.pattern) { try { new RegExp; test } catch {} }` — the
regex builtin is the `compile` parameter; a compile failure (`none`)
is the caught exception, leaving the check silently passed. -/
def checkPattern (compile : String → Option (String → Bool))
    (label : String) (rules : FieldRules) (s : String) : Option String :=
  match rules.pattern with
  | some p =>
    if p = "" then none
    else
      match compile p with
      | some test => if test s then none else some (label ++ " format is invalid.")
      | none => none
  | none => none

/-- The text-like rule block shared verbatim by both renderer copies. -/
def validateTextRules (compile : String → Option (String → Bool))
    (label : String) (rules : FieldRules) (s : String) : Option String :=
  firstSome (checkMinLength label rules s)
    (firstSome (checkMaxLength label rules s) (checkPattern compile label rules s))

/-- `if (rules.integer && !Number.isInteger(num))`. -/
def checkInteger (label : String) (rules : FieldRules) (q : ℚ) : Option String :=
  if rules.integer = some true ∧ q.den ≠ 1 then
    some (label ++ " must be a whole number.")
  else none

/-- `if (rules.min != null && num < rules.min)`. -/
def checkMinNum (label : String) (rules : FieldRules) (q : ℚ) : Option String :=
  match rules.min with
  | some m => if q < m then some (label ++ " must be at least " ++ fmtNum m ++ ".") else none
  | none => none

/-- `if (rules.max != null && num > rules.max)`. -/
def checkMaxNum (label : String) (rules : FieldRules) (q : ℚ) : Option String :=
  match rules.max with
  | some m => if q > m then some (label ++ " must be at most " ++ fmtNum m ++ ".") else none
  | none => none

/-- The number rule block shared verbatim by both renderer copies. -/
def validateNumberRules (label : String) (rules : FieldRules) (q : ℚ) : Option String :=
  firstSome (checkInteger label rules q)
    (firstSome (checkMinNum label rules q) (checkMaxNum label rules q))

/-- Exception message for reading a property of an `undefined` rules bag. -/
def typeErrorMsg : String := "TypeError: cannot read property of undefined"

/-- `validateValue` of `src/components/preview/FormRenderer.tsx`.

That copy does `const rules: FieldRules = field.rules as FieldRules;`
and then dereferences `rules.minLength` / `rules.integer` without
optional chaining, so when `field.rules` is absent the dereference
throws — modelled by `Except.error`. -/
def validateValueComponents (compile : String → Option (String → Bool))
    (field : RField) (value : Value) : Except String (Option String) :=
  if field.required && isEmptyVal field.type value then
    Except.ok (some (field.label ++ " is required."))
  else if isTextLike field.type then
    match value with
    | Value.str s =>
      match field.rules with
      | none => Except.error typeErrorMsg
      | some rules => Except.ok (validateTextRules compile field.label rules s)
    | _ => Except.ok none
  else if field.type = FieldType.number then
    if isBlank value then Except.ok none
    else
      match toNumber value with
      | none => Except.ok (some (field.label ++ " must be a number."))
      | some q =>
        match field.rules with
        | none => Except.error typeErrorMsg
        | some rules => Except.ok (validateNumberRules field.label rules q)
  else Except.ok none

/-- `validateValue` of `src/preview/FormRenderer.tsx`.

That copy guards every rules access with optional chaining
(`rules?.minLength` etc.), so an absent rules bag behaves as a bag with
every key undefined and the function never throws. -/
def validateValuePreview (compile : String → Option (String → Bool))
    (field : RField) (value : Value) : Option String :=
  if field.required && isEmptyVal field.type value then
    some (field.label ++ " is required.")
  else if isTextLike field.type then
    match value with
    | Value.str s => validateTextRules compile field.label (field.rules.getD {}) s
    | _ => none
  else if field.type = FieldType.number then
    if isBlank value then none
    else
      match toNumber value with
      | none => some (field.label ++ " must be a number.")
      | some q => validateNumberRules field.label (field.rules.getD {}) q
  else none

/-- A regex compiler that fails on every pattern (used at concrete inputs). -/
def compileNone : String → Option (String → Bool) := fun _ => none

/-! ## Schema projector (`lib/schema-generator.ts`)

The schema generator treats `field.rules` as `unknown` and probes it
defensively, so here rules are a dynamic JavaScript value. -/

/-- Dynamic JavaScript values as the schema generator can meet them.
Object entries are listed with distinct keys (object literals). -/
inductive JsValue where
  | str (s : String)
  | num (q : ℚ)
  | bool (b : Bool)
  | null
  | undef
  | arr (elems : List JsValue)
  | obj (entries : List (String × JsValue))

/-- `typeof value === "object" && value !== null` (arrays included). -/
def isRecord : JsValue → Bool
  | JsValue.obj _ => true
  | JsValue.arr _ => true
  | _ => false

/-- `Array.isArray`. -/
def isArrayJs : JsValue → Bool
  | JsValue.arr _ => true
  | _ => false

/-- Property access `obj[key]`: `undefined` when absent or when the
receiver is not an object with that key. -/
def getProp (v : JsValue) (k : String) : JsValue :=
  match v with
  | JsValue.obj entries =>
    match entries.find? (fun kv => kv.1 == k) with
    | some kv => kv.2
    | none => JsValue.undef
  | _ => JsValue.undef

/-- `readNumber`: the value at `key` when it is a number, else undefined. -/
def readNumber (obj : JsValue) (key : String) : Option ℚ :=
  match getProp obj key with
  | JsValue.num q => some q
  | _ => none

/-- `readBoolean`: the value at `key` when it is a boolean, else undefined. -/
def readBoolean (obj : JsValue) (key : String) : Option Bool :=
  match getProp obj key with
  | JsValue.bool b => some b
  | _ => none

/-- `readString`: the value at `key` when it is a string, else undefined. -/
def readString (obj : JsValue) (key : String) : Option String :=
  match getProp obj key with
  | JsValue.str s => some s
  | _ => none

/-- One step of `readOptionsValues`'s map-then-filter: a record option's
string `value`, dropped otherwise (`filterMap` fuses the source's
`.map(...).filter(typeof v === "string")`). -/
def readOptionValue (opt : JsValue) : Option String :=
  if isRecord opt then
    match getProp opt "value" with
    | JsValue.str s => some s
    | _ => none
  else none

/-- `readOptionsValues`: the string `value`s of `rules.options`, in
order; `[]` when the bag is not a record or `options` is not an array. -/
def readOptionsValues (rules : JsValue) : List String :=
  if isRecord rules then
    match getProp rules "options" with
    | JsValue.arr xs => xs.filterMap readOptionValue
    | _ => []
  else []

/-- A `Field` as the schema generator consumes it (`rules` dynamic). -/
structure SField where
  name : String
  type : FieldType
  required : Bool := false
  rules : JsValue := JsValue.undef

/-- A `FormDefinition` restricted to what `generateJsonSchema` reads. -/
structure SFormDef where
  title : String
  fields : List SField

/-- The `StringSchema` property shape the generator can emit. -/
structure StringSchema where
  format : Option String := none
  minLength : Option ℚ := none
  maxLength : Option ℚ := none
  pattern : Option String := none
  enumVals : Option (List String) := none
deriving DecidableEq

/-- `type: "number"` vs the upgrade to `type: "integer"`. -/
inductive NumSchemaType where
  | number
  | integer
deriving DecidableEq

/-- The `NumberSchema` property shape the generator can emit. -/
structure NumberSchema where
  numType : NumSchemaType := NumSchemaType.number
  minimum : Option ℚ := none
  maximum : Option ℚ := none
deriving DecidableEq

/-- The value type inside the schema's `properties` object. -/
inductive JsonSchemaProperty where
  | str (s : StringSchema)
  | num (n : NumberSchema)
  | bool
deriving DecidableEq

/-- The generated document: `$schema` is `schemaUri` here. -/
structure JsonSchema where
  schemaUri : String
  title : String
  additionalProperties : Bool
  properties : List (String × JsonSchemaProperty)
  required : Option (List String)

/-- The text-like (`text`/`textarea`/`email`) branch of `fieldToJsonSchema`. -/
def textLikeProperty (f : SField) : StringSchema :=
  { format := if f.type = FieldType.email then some "email" else none
    minLength := if isRecord f.rules then readNumber f.rules "minLength" else none
    maxLength := if isRecord f.rules then readNumber f.rules "maxLength" else none
    pattern :=
      if isRecord f.rules then
        match readString f.rules "pattern" with
        | some p => if trimJs p = "" then none else some p
        | none => none
      else none
    enumVals := none }

/-- `fieldToJsonSchema`: one field's property schema, switching on the
field's own type and probing only that type's rule keys. -/
def fieldToJsonSchema (f : SField) : JsonSchemaProperty :=
  match f.type with
  | FieldType.text => JsonSchemaProperty.str (textLikeProperty f)
  | FieldType.textarea => JsonSchemaProperty.str (textLikeProperty f)
  | FieldType.email => JsonSchemaProperty.str (textLikeProperty f)
  | FieldType.number =>
    JsonSchemaProperty.num
      { numType :=
          if (if isRecord f.rules then readBoolean f.rules "integer" else none) = some true
          then NumSchemaType.integer else NumSchemaType.number
        minimum := if isRecord f.rules then readNumber f.rules "min" else none
        maximum := if isRecord f.rules then readNumber f.rules "max" else none }
  | FieldType.date => JsonSchemaProperty.str { format := some "date" }
  | FieldType.select => JsonSchemaProperty.str { enumVals := some (readOptionsValues f.rules) }
  | FieldType.checkbox => JsonSchemaProperty.bool

/-- JS object assignment `properties[field.name] = ...`: replace the
existing entry in place or append a fresh one. -/
def setKey : List (String × JsonSchemaProperty) → String → JsonSchemaProperty →
    List (String × JsonSchemaProperty)
  | [], k, v => [(k, v)]
  | kv :: rest, k, v => if kv.1 == k then (k, v) :: rest else kv :: setKey rest k v

/-- JS property lookup on the built `properties` object. -/
def lookupProp : List (String × JsonSchemaProperty) → String → Option JsonSchemaProperty
  | [], _ => none
  | kv :: rest, k => if kv.1 == k then some kv.2 else lookupProp rest k

/-- The `for (const field of form.fields)` loop of `generateJsonSchema`,
threading the `properties` object and the `required` array. -/
def schemaLoop : List SField → List (String × JsonSchemaProperty) → List String →
    List (String × JsonSchemaProperty) × List String
  | [], props, req => (props, req)
  | f :: rest, props, req =>
    schemaLoop rest (setKey props f.name (fieldToJsonSchema f))
      (if f.required then req ++ [f.name] else req)

/-- `generateJsonSchema`: the full document; `required` is set only when
the collected array is nonempty. -/
def generateJsonSchema (form : SFormDef) : JsonSchema :=
  let pr := schemaLoop form.fields [] []
  { schemaUri := "https://json-schema.org/draft/2020-12/schema"
    title := form.title
    additionalProperties := false
    properties := pr.1
    required := if pr.2.length > 0 then some pr.2 else none }

/-- The rule keys `fieldToJsonSchema` probes for each field type. -/
def relevantKeys : FieldType → List String
  | FieldType.text => ["minLength", "maxLength", "pattern"]
  | FieldType.textarea => ["minLength", "maxLength", "pattern"]
  | FieldType.email => ["minLength", "maxLength", "pattern"]
  | FieldType.number => ["integer", "min", "max"]
  | FieldType.select => ["options"]
  | FieldType.date => []
  | FieldType.checkbox => []

/-- Drop every rules-bag entry whose key is not relevant to the given
field type (non-object bags are left as they are). -/
def restrictRules (t : FieldType) : JsValue → JsValue
  | JsValue.obj entries =>
    JsValue.obj (entries.filter (fun kv => (relevantKeys t).contains kv.1))
  | r => r

/-- A well-formed `{label, value}` option literal. -/
def mkOption (lv : String × String) : JsValue :=
  JsValue.obj [("label", JsValue.str lv.1), ("value", JsValue.str lv.2)]

/-- A well-formed select rules bag `{options: [...]}`. -/
def mkSelectRules (opts : List (String × String)) : JsValue :=
  JsValue.obj [("options", JsValue.arr (opts.map mkOption))]

/-! ## Component exporter helpers (`lib/exporters/react-ts.ts`) -/

/-- The backtick character (code 96). -/
def btChar : Char := Char.ofNat 96

/-- The left-brace character (code 123). -/
def lbraceChar : Char := Char.ofNat 123

/-- `input.replace(/\\/g, "\\\\")` character by character. -/
def escBackslash : List Char → List Char
  | [] => []
  | c :: r => if c = '\\' then '\\' :: '\\' :: escBackslash r else c :: escBackslash r

/-- The backtick-escaping replace of `escapeTemplateString`, character
by character. -/
def escBacktick : List Char → List Char
  | [] => []
  | c :: r => if c = btChar then '\\' :: btChar :: escBacktick r else c :: escBacktick r

/-- The interpolation-marker-escaping replace of `escapeTemplateString`:
every (leftmost, non-overlapping) dollar-brace pair gets a backslash. -/
def escInterp : List Char → List Char
  | [] => []
  | [c] => [c]
  | c1 :: c2 :: rest =>
    if c1 = '$' ∧ c2 = lbraceChar then '\\' :: '$' :: lbraceChar :: escInterp rest
    else c1 :: escInterp (c2 :: rest)

/-- `escapeTemplateString`: the three sequential global replaces of the
source (backslash doubling, backtick escaping, dollar-brace escaping). -/
def escapeTemplateString (s : String) : String :=
  String.mk (escInterp (escBacktick (escBackslash s.toList)))

/-- Reading a template-literal chunk back: fails on an unescaped
backtick (the delimiter would close), an unescaped dollar-brace pair
(interpolation would start), a dangling final backslash, or an escape
the model does not cover; otherwise yields the cooked text. -/
def tmplDecode : List Char → Option (List Char)
  | [] => some []
  | [c] => if c = '\\' ∨ c = btChar then none else some [c]
  | c1 :: c2 :: rest =>
    if c1 = '\\' then
      if c2 = '\\' ∨ c2 = btChar ∨ c2 = '$' ∨ c2 = lbraceChar then
        (tmplDecode rest).map (fun l => c2 :: l)
      else none
    else if c1 = btChar then none
    else if c1 = '$' ∧ c2 = lbraceChar then none
    else (tmplDecode (c2 :: rest)).map (fun l => c1 :: l)

/-- The character class kept by `safeIdentifier`'s replace:
`[A-Za-z0-9_\-\s]` (whitespace approximated by `Char.isWhitespace`). -/
def keepIdentChar (c : Char) : Bool :=
  c.isAlpha || c.isDigit || c = '_' || c = '-' || c.isWhitespace

/-- `safeIdentifier`: drop disallowed characters (to spaces), trim;
empty input falls back to the fixed name. -/
def safeIdentifier (input : String) : String :=
  let cleaned := trimJs (String.mk (input.toList.map (fun c => if keepIdentChar c then c else ' ')))
  if cleaned = "" then "GeneratedForm" else cleaned

/-- Split on whitespace runs and drop empty parts
(`split(/\s+/).filter(Boolean)`). -/
def splitWsAux : List Char → List Char → List (List Char)
  | [], acc => if acc = [] then [] else [acc.reverse]
  | c :: rest, acc =>
    if c.isWhitespace then
      if acc = [] then splitWsAux rest [] else acc.reverse :: splitWsAux rest []
    else splitWsAux rest (c :: acc)

/-- `part.charAt(0).toUpperCase() + part.slice(1)`. -/
def capitalizeWord : List Char → String
  | [] => ""
  | c :: rest => String.mk (c.toUpper :: rest)

/-- `toPascalCase`: underscores/hyphens to spaces, split on whitespace,
capitalize each word, concatenate. -/
def toPascalCase (input : String) : String :=
  let replaced := input.toList.map (fun c => if c = '_' || c = '-' then ' ' else c)
  String.join ((splitWsAux replaced []).map capitalizeWord)

/-- `/^[A-Za-z_]/.test(s)`. -/
def startsWithIdentChar (s : String) : Bool :=
  match s.toList with
  | [] => false
  | c :: _ => c.isAlpha || c = '_'

/-- `makeSafeComponentName`: PascalCase the cleaned input, fall back to
the fixed name when empty, prefix `Form` when the head character is not
a letter or underscore. -/
def makeSafeComponentName (input : String) : String :=
  let base := toPascalCase (safeIdentifier input)
  let fallback := if base = "" then "GeneratedForm" else base
  if startsWithIdentChar fallback then fallback else "Form" ++ fallback

/-- The identifier `generateReactTsComponent` embeds:
`makeSafeComponentName(form.id || form.title || "GeneratedForm")`
(`||` takes the first nonempty string). -/
def exportComponentName (id title : String) : String :=
  makeSafeComponentName (if id ≠ "" then id else if title ≠ "" then title else "GeneratedForm")

/-! ## Concrete sample inputs -/

/-- A plain optional text field with no rules bag. -/
def sampleTextField : RField :=
  { name := "fullName", label := "Name", type := FieldType.text, required := false, rules := none }

/-- A required checkbox field. -/
def sampleCheckboxField : RField :=
  { name := "agree", label := "Agree", type := FieldType.checkbox, required := true, rules := none }

/-- A text field carrying an uncompilable pattern and a length bound. -/
def samplePatternField : RField :=
  { name := "code", label := "Code", type := FieldType.text, required := false,
    rules := some { minLength := some 2, pattern := some "(" } }

/-- An optional integer-number field with inclusive bounds 3..5. -/
def sampleAgeField : RField :=
  { name := "age", label := "Age", type := FieldType.number, required := false,
    rules := some { integer := some true, min := some 3, max := some 5 } }

/-- A required integer-number field with inclusive bounds 0..5. -/
def sampleRequiredAgeField : RField :=
  { name := "age", label := "Age", type := FieldType.number, required := true,
    rules := some { integer := some true, min := some 0, max := some 5 } }

/-- A text field whose rules bag is present but empty. -/
def sampleEmptyRulesField : RField :=
  { name := "note", label := "Note", type := FieldType.text, required := false,
    rules := some {} }

/-- The spec's round-trip field `{name: "email", type: "email", required: true}`
with no text rules set. -/
def sampleEmailField : SField :=
  { name := "email", type := FieldType.email, required := true, rules := JsValue.undef }

/-- A one-field form holding the round-trip email field. -/
def sampleEmailForm : SFormDef :=
  { title := "Contact", fields := [sampleEmailField] }

/-- The spec's select field with options Yes/y and No/n. -/
def sampleSelectField : SField :=
  { name := "choice", type := FieldType.select, required := false,
    rules := mkSelectRules [("Yes", "y"), ("No", "n")] }

/-- A rules bag with the pattern key removed (all other keys kept). -/
def withoutPattern (r : FieldRules) : FieldRules :=
  { r with pattern := none }

/-- Replace a renderer field's rules bag. -/
def setFieldRules (f : RField) (r : FieldRules) : RField :=
  { f with rules := some r }

/-! ## Validator lemmas and claims -/

/-- A value whose coercion is a non-integral number cannot be blank
(the blank values coerce to `0` or to NaN). -/
theorem isBlank_false_of_den_ne_one (v : Value) (q : ℚ) (hq : toNumber v = some q)
    (hd : q.den ≠ 1) : isBlank v = false := by
  cases v with
  | str s =>
    by_cases hs : s = ""
    · subst hs
      have h0 : toNumber (Value.str "") = some 0 := rfl
      rw [h0] at hq
      cases hq
      exact absurd rfl hd
    · simp [isBlank, hs]
  | num q' => rfl
  | bool b => rfl
  | null =>
    have h0 : toNumber Value.null = some 0 := rfl
    rw [h0] at hq
    cases hq
    exact absurd rfl hd
  | undef => simp [toNumber] at hq

/-- An uncompilable (or removed) pattern makes the pattern check a no-op. -/
theorem checkPattern_none_of_compile_none (compile : String → Option (String → Bool))
    (lb : String) (r : FieldRules) (s p : String)
    (hp : r.pattern = some p) (hc : compile p = none) :
    checkPattern compile lb r s = none := by
  unfold checkPattern
  rw [hp]
  simp [hc]

/-- C1.  The spec claims `validateValue` never throws, in particular on a
text field whose optional rules bag is absent, for any string value.  The
copy in `src/components/preview/FormRenderer.tsx` dereferences the rules
bag without optional chaining, so that exact input throws a TypeError
(while the `src/preview` copy returns null there): the code contradicts
the spec's (and its sibling copy's) intent. -/
theorem c1_validator_throws_on_absent_rules :
    validateValueComponents compileNone sampleTextField (Value.str "hi") =
      Except.error typeErrorMsg ∧
    validateValuePreview compileNone sampleTextField (Value.str "hi") = none :=
  ⟨rfl, rfl⟩

/-- C2.  For every field with `required` set and an empty value appropriate
to its type, `validateValue` returns exactly the required message and
short-circuits, producing no secondary message for the same call. -/
theorem c2_required_short_circuit (compile : String → Option (String → Bool))
    (field : RField) (value : Value) (hreq : field.required = true)
    (hempty : isEmptyVal field.type value = true) :
    validateValueComponents compile field value =
      Except.ok (some (field.label ++ " is required.")) := by
  unfold validateValueComponents
  rw [hreq, hempty]
  rfl

/-- C2 witness: a required checkbox against `undefined`. -/
theorem c2_witness :
    sampleCheckboxField.required = true ∧
    isEmptyVal sampleCheckboxField.type Value.undef = true ∧
    validateValueComponents compileNone sampleCheckboxField Value.undef =
      Except.ok (some "Agree is required.") :=
  ⟨rfl, rfl, c2_required_short_circuit compileNone sampleCheckboxField Value.undef rfl rfl⟩

/-- An absent pattern rule makes the pattern check a no-op. -/
theorem checkPattern_none_of_no_pattern (compile : String → Option (String → Bool))
    (lb : String) (r : FieldRules) (s : String) (hp : r.pattern = none) :
    checkPattern compile lb r s = none := by
  unfold checkPattern
  rw [hp]

/-- The text rule block ignores an uncompilable pattern entirely: the
result coincides with the same rules bag with the pattern key removed. -/
theorem validateTextRules_compile_none (compile : String → Option (String → Bool))
    (lb : String) (r : FieldRules) (s p : String)
    (hp : r.pattern = some p) (hc : compile p = none) :
    validateTextRules compile lb r s = validateTextRules compile lb (withoutPattern r) s := by
  obtain ⟨ml, mxl, pat, intg, mn, mxn, opts⟩ := r
  dsimp only at hp
  subst hp
  unfold validateTextRules withoutPattern
  dsimp only
  rw [checkPattern_none_of_compile_none compile lb _ s p rfl hc]
  rw [checkPattern_none_of_no_pattern compile lb _ s rfl]
  rfl

/-- C3.  A text-like field whose pattern fails to compile never raises and
behaves exactly as if the pattern rule were absent: only the length rules
can still reject the value. -/
theorem c3_invalid_pattern_fail_open (compile : String → Option (String → Bool))
    (f : RField) (r : FieldRules) (p : String) (v : Value)
    (ht : isTextLike f.type = true) (hr : f.rules = some r)
    (hp : r.pattern = some p) (hc : compile p = none) :
    validateValueComponents compile f v =
      validateValueComponents compile (setFieldRules f (withoutPattern r)) v ∧
    ∃ o, validateValueComponents compile f v = Except.ok o := by
  obtain ⟨n, lb, t, rq, ru⟩ := f
  dsimp only at ht hr ⊢
  subst hr
  unfold validateValueComponents setFieldRules
  dsimp only
  by_cases h1 : (rq && isEmptyVal t v) = true
  · rw [h1]
    exact ⟨rfl, _, rfl⟩
  · rw [Bool.not_eq_true] at h1
    rw [h1, ht]
    cases v with
    | str s =>
      dsimp only
      rw [validateTextRules_compile_none compile lb r s p hp hc]
      exact ⟨rfl, _, rfl⟩
    | num q => exact ⟨rfl, _, rfl⟩
    | bool b => exact ⟨rfl, _, rfl⟩
    | null => exact ⟨rfl, _, rfl⟩
    | undef => exact ⟨rfl, _, rfl⟩

/-- C3 witness: an unbalanced-bracket pattern on a concrete text field. -/
theorem c3_witness :
    isTextLike samplePatternField.type = true ∧
    (validateValueComponents compileNone samplePatternField (Value.str "zz") =
      validateValueComponents compileNone
        (setFieldRules samplePatternField
          (withoutPattern { minLength := some 2, pattern := some "(" })) (Value.str "zz") ∧
    ∃ o, validateValueComponents compileNone samplePatternField (Value.str "zz") =
      Except.ok o) :=
  ⟨rfl, c3_invalid_pattern_fail_open compileNone samplePatternField
    { minLength := some 2, pattern := some "(" } "(" (Value.str "zz") rfl rfl rfl rfl⟩


/-- Specialized number-branch evaluation: a non-blank numeric value on a
number field with a present rules bag reaches the number rule block. -/
theorem validateValueComponents_number_eval (compile : String → Option (String → Bool))
    (n lb : String) (rq : Bool) (r : FieldRules) (v : Value) (q : ℚ)
    (hblank : isBlank v = false) (hq : toNumber v = some q) :
    validateValueComponents compile
      { name := n, label := lb, type := FieldType.number, required := rq, rules := some r } v =
      Except.ok (validateNumberRules lb r q) := by
  have hempty : isEmptyVal FieldType.number v = false := by
    unfold isEmptyVal
    rw [if_neg (by decide : ¬(FieldType.number = FieldType.checkbox))]
    exact hblank
  unfold validateValueComponents
  dsimp only
  rw [hempty, Bool.and_false, if_neg Bool.false_ne_true,
    (by rfl : isTextLike FieldType.number = false), if_neg Bool.false_ne_true,
    if_pos rfl, hblank, if_neg Bool.false_ne_true, hq]

/-- An integral value passes the integer check. -/
theorem checkInteger_none (lb : String) (r : FieldRules) (q : ℚ) (hden : q.den = 1) :
    checkInteger lb r q = none := by
  unfold checkInteger
  rw [if_neg (fun hcon => hcon.2 hden)]

/-- A value at or above the (possibly absent) lower bound passes the min check. -/
theorem checkMinNum_none (lb : String) (r : FieldRules) (q : ℚ)
    (hmin : ∀ m, r.min = some m → m ≤ q) : checkMinNum lb r q = none := by
  unfold checkMinNum
  rcases hn : r.min with _ | m
  · rfl
  · dsimp only
    rw [if_neg (not_lt.mpr (hmin m hn))]

/-- A value at or below the (possibly absent) upper bound passes the max check. -/
theorem checkMaxNum_none (lb : String) (r : FieldRules) (q : ℚ)
    (hmax : ∀ m, r.max = some m → q ≤ m) : checkMaxNum lb r q = none := by
  unfold checkMaxNum
  rcases hx : r.max with _ | m
  · rfl
  · dsimp only
    rw [if_neg (not_lt.mpr (hmax m hx))]

/-- C7 counterexample.  The claim quantifies over every value that
coerces to an integral in-bounds number; the empty string coerces to 0
(integral, inside the bounds 0..5 of the field), yet on a required
number field `validateValue` returns the required message, not null. -/
theorem c7_counterexample :
    toNumber (Value.str "") = some 0 ∧
    (0 : ℚ).den = 1 ∧
    (0 : ℚ) ≤ 0 ∧ (0 : ℚ) ≤ 5 ∧
    validateValueComponents compileNone sampleRequiredAgeField (Value.str "") ≠
      Except.ok none := by
  refine ⟨by decide, rfl, le_refl 0, by norm_num, ?_⟩
  have heval : validateValueComponents compileNone sampleRequiredAgeField (Value.str "") =
      Except.ok (some "Age is required.") := rfl
  rw [heval]
  intro h
  exact Option.noConfusion (Except.ok.inj h)

/-- C7 (amended).  On a number field with a rules bag whose `integer` is
true: a value coercing to a non-integral number yields the whole-number
message; a non-empty value coercing to an integral number within the
inclusive `min`/`max` bounds (each checked only when present) yields
null, so a value equal to either bound passes. -/
theorem c7_number_integer_and_bounds (compile : String → Option (String → Bool))
    (f : RField) (r : FieldRules) (v : Value) (q : ℚ)
    (ht : f.type = FieldType.number) (hr : f.rules = some r)
    (hint : r.integer = some true) (hq : toNumber v = some q) :
    (q.den ≠ 1 →
      validateValueComponents compile f v =
        Except.ok (some (f.label ++ " must be a whole number."))) ∧
    (isBlank v = false → q.den = 1 →
      (∀ m, r.min = some m → m ≤ q) → (∀ m, r.max = some m → q ≤ m) →
      validateValueComponents compile f v = Except.ok none) := by
  obtain ⟨n, lb, t, rq, ru⟩ := f
  dsimp only at ht hr ⊢
  subst ht
  subst hr
  constructor
  · intro hd
    have hblank : isBlank v = false := isBlank_false_of_den_ne_one v q hq hd
    rw [validateValueComponents_number_eval compile n lb rq r v q hblank hq]
    unfold validateNumberRules firstSome checkInteger
    rw [if_pos ⟨hint, hd⟩]
  · intro hblank hden hmin hmax
    rw [validateValueComponents_number_eval compile n lb rq r v q hblank hq]
    unfold validateNumberRules firstSome
    rw [checkInteger_none lb r q hden, checkMinNum_none lb r q hmin,
      checkMaxNum_none lb r q hmax]

/-- C7 witness: a value coercing to a fractional number fails with the
whole-number message; a value equal to the inclusive lower bound passes. -/
theorem c7_witness :
    validateValueComponents compileNone sampleAgeField (Value.num (5 / 2)) =
      Except.ok (some "Age must be a whole number.") ∧
    validateValueComponents compileNone sampleAgeField (Value.num 3) =
      Except.ok none :=
  ⟨(c7_number_integer_and_bounds compileNone sampleAgeField
      { integer := some true, min := some 3, max := some 5 } (Value.num (5 / 2)) (5 / 2)
      rfl rfl rfl rfl).1 (by norm_num),
   (c7_number_integer_and_bounds compileNone sampleAgeField
      { integer := some true, min := some 3, max := some 5 } (Value.num 3) 3
      rfl rfl rfl rfl).2 rfl (by norm_num)
      (fun m hm => le_of_eq (Option.some.inj hm).symm)
      (fun m hm => by rw [← Option.some.inj hm]; norm_num)⟩

/-- C10 counterexample.  The claim says the two validator copies always
produce the same outcome; on a text field with no rules bag and a string
value the components copy throws while the preview copy returns null. -/
theorem c10_counterexample :
    validateValueComponents compileNone sampleTextField (Value.str "hi") ≠
      Except.ok (validateValuePreview compileNone sampleTextField (Value.str "hi")) := by
  intro h
  exact Except.noConfusion h

/-- C10 (amended).  The two validator copies agree — same message, same
null, neither raising — on every field whose rules bag is present; they
can differ only when the bag is absent (where the components copy throws
and the preview copy treats the bag as empty). -/
theorem c10_copies_agree_on_present_rules (compile : String → Option (String → Bool))
    (f : RField) (r : FieldRules) (v : Value) (hr : f.rules = some r) :
    validateValueComponents compile f v =
      Except.ok (validateValuePreview compile f v) := by
  obtain ⟨n, lb, t, rq, ru⟩ := f
  dsimp only at hr ⊢
  subst hr
  unfold validateValueComponents validateValuePreview
  split
  · rfl
  · split
    · cases v <;> rfl
    · split
      · split
        · rfl
        · split <;> rfl
      · rfl

/-- C10 witness: both copies on a present-but-empty rules bag. -/
theorem c10_witness :
    validateValueComponents compileNone sampleEmptyRulesField (Value.str "ok") =
      Except.ok (validateValuePreview compileNone sampleEmptyRulesField (Value.str "ok")) :=
  c10_copies_agree_on_present_rules compileNone sampleEmptyRulesField {} (Value.str "ok") rfl

/-! ## Schema projector lemmas and claims -/

/-- Looking up a key right after assigning it yields the assigned value. -/
theorem lookup_setKey_self (m : List (String × JsonSchemaProperty)) (k : String)
    (v : JsonSchemaProperty) : lookupProp (setKey m k v) k = some v := by
  induction m with
  | nil => simp [setKey, lookupProp]
  | cons kv rest ih =>
    unfold setKey
    by_cases h : (kv.1 == k) = true
    · rw [if_pos h]
      simp [lookupProp]
    · rw [if_neg h]
      unfold lookupProp
      rw [if_neg h]
      exact ih

/-- Assigning one key leaves every other key's lookup unchanged. -/
theorem lookup_setKey_ne (m : List (String × JsonSchemaProperty)) (k k' : String)
    (v : JsonSchemaProperty) (hk : (k == k') = false) :
    lookupProp (setKey m k v) k' = lookupProp m k' := by
  induction m with
  | nil => simp [setKey, lookupProp, hk]
  | cons kv rest ih =>
    unfold setKey
    by_cases h : (kv.1 == k) = true
    · rw [if_pos h]
      have hkv : kv.1 = k := eq_of_beq h
      unfold lookupProp
      rw [hkv, hk]
      simp
    · rw [if_neg h]
      unfold lookupProp
      by_cases h' : (kv.1 == k') = true
      · rw [if_pos h', if_pos h']
      · rw [if_neg h', if_neg h']
        exact ih

/-- The `required` accumulator of the schema loop collects exactly the
names of the required fields, in field order. -/
theorem schemaLoop_snd (fs : List SField) (props : List (String × JsonSchemaProperty))
    (req : List String) :
    (schemaLoop fs props req).2 =
      req ++ (fs.filter (fun g => g.required)).map (fun g => g.name) := by
  induction fs generalizing props req with
  | nil => simp [schemaLoop]
  | cons f rest ih =>
    unfold schemaLoop
    by_cases hf : f.required = true
    · rw [List.filter_cons, if_pos hf, ih, hf]
      simp
    · rw [List.filter_cons, if_neg hf, ih]
      rw [Bool.not_eq_true] at hf
      rw [hf]
      simp

/-- A lookup already settled to the final value survives the rest of the
loop as long as every later field with that name writes the same value. -/
theorem schemaLoop_props_preserve (fs : List SField)
    (props : List (String × JsonSchemaProperty)) (req : List String)
    (k : String) (v : JsonSchemaProperty)
    (hall : ∀ g ∈ fs, g.name = k → fieldToJsonSchema g = v)
    (h0 : lookupProp props k = some v) :
    lookupProp (schemaLoop fs props req).1 k = some v := by
  induction fs generalizing props req with
  | nil => exact h0
  | cons f rest ih =>
    unfold schemaLoop
    apply ih
    · intro g hg hgk
      exact hall g (List.mem_cons_of_mem f hg) hgk
    · by_cases hf : f.name = k
      · have hv : fieldToJsonSchema f = v := hall f (List.mem_cons_self f rest) hf
        rw [← hf, hv]
        exact lookup_setKey_self props f.name v
      · rw [lookup_setKey_ne props f.name k (fieldToJsonSchema f) (beq_eq_false_iff_ne.mpr hf)]
        exact h0

/-- A field with a form-unique name owns its `properties` entry. -/
theorem lookup_schemaLoop_mem (fs : List SField)
    (props : List (String × JsonSchemaProperty)) (req : List String) (f : SField)
    (hmem : f ∈ fs) (huniq : ∀ g ∈ fs, g.name = f.name → g = f) :
    lookupProp (schemaLoop fs props req).1 f.name = some (fieldToJsonSchema f) := by
  induction fs generalizing props req with
  | nil => cases hmem
  | cons g rest ih =>
    unfold schemaLoop
    rcases List.mem_cons.mp hmem with hfg | hfr
    · apply schemaLoop_props_preserve
      · intro g' hg' hname
        rw [huniq g' (List.mem_cons_of_mem g hg') hname]
      · rw [← hfg]
        exact lookup_setKey_self props f.name (fieldToJsonSchema f)
    · apply ih
      · exact hfr
      · intro g' hg' hname
        exact huniq g' (List.mem_cons_of_mem g hg') hname

/-- C4.  The generated schema's `required` key is the array of the names
of exactly the fields whose required flag is true, in field order, and
the key is absent entirely when no field is required. -/
theorem c4_required_projection (form : SFormDef) :
    (generateJsonSchema form).required =
      (if (form.fields.filter (fun g => g.required)).map (fun g => g.name) = []
       then none
       else some ((form.fields.filter (fun g => g.required)).map (fun g => g.name))) := by
  unfold generateJsonSchema
  dsimp only
  rw [schemaLoop_snd form.fields [] [], List.nil_append]
  rcases hnames : (form.fields.filter (fun g => g.required)).map (fun g => g.name) with _ | ⟨a, l⟩
  · have hfil : form.fields.filter (fun g => g.required) = [] := List.map_eq_nil_iff.mp hnames
    rw [hfil]
    simp
  · rw [hnames]
    simp

/-- C6.  A form containing the field `{name: "email", type: "email",
required: true}` (and no other field named `email`) projects to a schema
whose `properties.email` is `{type: "string", format: "email"}` and whose
`required` array contains `"email"`. -/
theorem c6_email_roundtrip (form : SFormDef)
    (hmem : sampleEmailField ∈ form.fields)
    (huniq : ∀ g ∈ form.fields, g.name = "email" → g = sampleEmailField) :
    lookupProp (generateJsonSchema form).properties "email" =
      some (JsonSchemaProperty.str { format := some "email" }) ∧
    ∃ req, (generateJsonSchema form).required = some req ∧ "email" ∈ req := by
  constructor
  · exact lookup_schemaLoop_mem form.fields [] [] sampleEmailField hmem huniq
  · have hmem2 : "email" ∈ (form.fields.filter (fun g => g.required)).map (fun g => g.name) := by
      refine List.mem_map.mpr ⟨sampleEmailField, ?_, rfl⟩
      exact List.mem_filter.mpr ⟨hmem, rfl⟩
    have hne : (form.fields.filter (fun g => g.required)).map (fun g => g.name) ≠ [] := by
      intro hcon
      rw [hcon] at hmem2
      cases hmem2
    refine ⟨(form.fields.filter (fun g => g.required)).map (fun g => g.name), ?_, hmem2⟩
    unfold generateJsonSchema
    dsimp only
    rw [schemaLoop_snd form.fields [] [], List.nil_append]
    rw [if_pos (List.length_pos.mpr hne)]

/-- C6 witness: the one-field contact form. -/
theorem c6_witness :
    lookupProp (generateJsonSchema sampleEmailForm).properties "email" =
      some (JsonSchemaProperty.str { format := some "email" }) ∧
    ∃ req, (generateJsonSchema sampleEmailForm).required = some req ∧ "email" ∈ req :=
  c6_email_roundtrip sampleEmailForm (List.mem_singleton.mpr rfl)
    (fun _g hg _ => List.mem_singleton.mp hg)

/-- A well-formed option literal reads back its `value` string. -/
theorem readOptionValue_mkOption (lv : String × String) :
    readOptionValue (mkOption lv) = some lv.2 := rfl

/-- Well-formed options project to their `value`s in option order. -/
theorem filterMap_readOptionValue_mkOption (opts : List (String × String)) :
    (opts.map mkOption).filterMap readOptionValue = opts.map (fun lv => lv.2) := by
  induction opts with
  | nil => rfl
  | cons lv rest ih =>
    rw [List.map_cons, List.filterMap_cons, readOptionValue_mkOption, List.map_cons, ih]

/-- C5.  A select field projects to `{type: "string", enum: [...]}` where
the enum is `readOptionsValues` of its rules: the option `value`s in
option order for a well-formed bag, and the empty array when the bag is
not a record, its `options` entry is not an array, or no option is an
object with a string `value`. -/
theorem c5_select_enum_projection (f : SField) (opts : List (String × String))
    (h : f.type = FieldType.select) :
    fieldToJsonSchema f =
      JsonSchemaProperty.str { enumVals := some (readOptionsValues f.rules) } ∧
    (f.rules = mkSelectRules opts →
      readOptionsValues f.rules = opts.map (fun lv => lv.2)) ∧
    (isRecord f.rules = false → readOptionsValues f.rules = []) ∧
    (∀ kvs, f.rules = JsValue.obj kvs → isArrayJs (getProp f.rules "options") = false →
      readOptionsValues f.rules = []) ∧
    (∀ xs, getProp f.rules "options" = JsValue.arr xs →
      xs.all (fun o => (readOptionValue o).isNone) = true →
      readOptionsValues f.rules = []) := by
  obtain ⟨n, t, rq, r⟩ := f
  dsimp only at h ⊢
  subst h
  refine ⟨rfl, ?_, ?_, ?_, ?_⟩
  · intro hrul
    subst hrul
    unfold readOptionsValues mkSelectRules
    rw [if_pos (show isRecord (JsValue.obj [("options", JsValue.arr (opts.map mkOption))]) = true
      from rfl)]
    rw [show getProp (JsValue.obj [("options", JsValue.arr (opts.map mkOption))]) "options" =
      JsValue.arr (opts.map mkOption) from rfl]
    exact filterMap_readOptionValue_mkOption opts
  · intro hrec
    unfold readOptionsValues
    rw [hrec]
    simp
  · intro kvs hkvs hnarr
    subst hkvs
    unfold readOptionsValues
    rw [if_pos (show isRecord (JsValue.obj kvs) = true from rfl)]
    rcases hgp : getProp (JsValue.obj kvs) "options" with s | q | b | _ | _ | xs | es
    · rfl
    · rfl
    · rfl
    · rfl
    · rfl
    · rw [hgp] at hnarr
      exact Bool.noConfusion hnarr
    · rfl
  · intro xs hgp hall
    rcases hr : r with s | q | b | _ | _ | ys | kvs
    · rfl
    · rfl
    · rfl
    · rfl
    · rfl
    · rfl
    · rw [hr] at hgp
      unfold readOptionsValues
      rw [if_pos (show isRecord (JsValue.obj kvs) = true from rfl), hgp]
      dsimp only
      rw [List.filterMap_eq_nil_iff]
      intro o ho
      exact Option.isNone_iff_eq_none.mp (List.all_eq_true.mp hall o ho)

/-- C5 witness: the Yes/No select of the spec's example. -/
theorem c5_witness :
    fieldToJsonSchema sampleSelectField =
      JsonSchemaProperty.str { enumVals := some (readOptionsValues sampleSelectField.rules) } ∧
    readOptionsValues sampleSelectField.rules = ["y", "n"] :=
  ⟨(c5_select_enum_projection sampleSelectField [("Yes", "y"), ("No", "n")] rfl).1,
   (c5_select_enum_projection sampleSelectField [("Yes", "y"), ("No", "n")] rfl).2.1 rfl⟩

/-- Filtering by a predicate that holds wherever the search predicate
holds does not change the first hit. -/
theorem find?_filter_of_imp {α : Type} (l : List α) (p q : α → Bool)
    (h : ∀ a, q a = true → p a = true) :
    (l.filter p).find? q = l.find? q := by
  induction l with
  | nil => rfl
  | cons a l ih =>
    by_cases hq : q a = true
    · rw [List.filter_cons, if_pos (h a hq)]
      simp [List.find?, hq]
    · rw [Bool.not_eq_true] at hq
      rw [List.filter_cons]
      by_cases hp : p a = true
      · rw [if_pos hp]
        simp only [List.find?, hq]
        exact ih
      · rw [if_neg hp]
        rw [ih]
        conv_rhs => rw [List.find?]
        rw [hq]

/-- Dropping rules-bag entries outside a key set leaves lookups of keys
inside the set unchanged. -/
theorem getProp_filter (kvs : List (String × JsValue)) (keys : List String) (k : String)
    (hk : keys.contains k = true) :
    getProp (JsValue.obj (kvs.filter (fun kv => keys.contains kv.1))) k =
      getProp (JsValue.obj kvs) k := by
  unfold getProp
  dsimp only
  rw [find?_filter_of_imp kvs (fun kv => keys.contains kv.1) (fun kv => kv.1 == k)]
  intro kv hkv
  rw [eq_of_beq hkv]
  exact hk

/-- C8.  The schema projector reads only the rule keys relevant to the
field's own type: restricting the rules bag to those keys (dropping any
leftover keys of other types) yields the same property schema. -/
theorem c8_irrelevant_rule_keys (f : SField) :
    fieldToJsonSchema f = fieldToJsonSchema { f with rules := restrictRules f.type f.rules } := by
  obtain ⟨n, t, rq, r⟩ := f
  dsimp only
  rcases r with s | q | b | _ | _ | ys | kvs
  · cases t <;> rfl
  · cases t <;> rfl
  · cases t <;> rfl
  · cases t <;> rfl
  · cases t <;> rfl
  · cases t <;> rfl
  · cases t
    · unfold fieldToJsonSchema textLikeProperty restrictRules relevantKeys
      dsimp only
      unfold readNumber readString
      rw [getProp_filter kvs ["minLength", "maxLength", "pattern"] "minLength" (by decide),
        getProp_filter kvs ["minLength", "maxLength", "pattern"] "maxLength" (by decide),
        getProp_filter kvs ["minLength", "maxLength", "pattern"] "pattern" (by decide)]
      simp [isRecord]
    · unfold fieldToJsonSchema textLikeProperty restrictRules relevantKeys
      dsimp only
      unfold readNumber readString
      rw [getProp_filter kvs ["minLength", "maxLength", "pattern"] "minLength" (by decide),
        getProp_filter kvs ["minLength", "maxLength", "pattern"] "maxLength" (by decide),
        getProp_filter kvs ["minLength", "maxLength", "pattern"] "pattern" (by decide)]
      simp [isRecord]
    · unfold fieldToJsonSchema textLikeProperty restrictRules relevantKeys
      dsimp only
      unfold readNumber readString
      rw [getProp_filter kvs ["minLength", "maxLength", "pattern"] "minLength" (by decide),
        getProp_filter kvs ["minLength", "maxLength", "pattern"] "maxLength" (by decide),
        getProp_filter kvs ["minLength", "maxLength", "pattern"] "pattern" (by decide)]
      simp [isRecord]
    · unfold fieldToJsonSchema restrictRules relevantKeys
      dsimp only
      unfold readNumber readBoolean
      rw [getProp_filter kvs ["integer", "min", "max"] "integer" (by decide),
        getProp_filter kvs ["integer", "min", "max"] "min" (by decide),
        getProp_filter kvs ["integer", "min", "max"] "max" (by decide)]
      simp [isRecord]
    · rfl
    · unfold fieldToJsonSchema readOptionsValues restrictRules relevantKeys
      dsimp only
      rw [getProp_filter kvs ["options"] "options" (by decide)]
      simp [isRecord]
    · rfl

/-! ## Component exporter lemmas and claim -/

/-- Backslash doubling on a leading backslash. -/
theorem escBackslash_cons_bs (r : List Char) :
    escBackslash ('\\' :: r) = '\\' :: '\\' :: escBackslash r := by
  simp [escBackslash]

/-- Backslash doubling passes other characters through. -/
theorem escBackslash_cons_ne (c : Char) (r : List Char) (h : c ≠ '\\') :
    escBackslash (c :: r) = c :: escBackslash r := by
  simp [escBackslash, h]

/-- Backtick escaping on a leading backtick. -/
theorem escBacktick_cons_bt (r : List Char) :
    escBacktick (btChar :: r) = '\\' :: btChar :: escBacktick r := by
  simp [escBacktick]

/-- Backtick escaping passes other characters through. -/
theorem escBacktick_cons_ne (c : Char) (r : List Char) (h : c ≠ btChar) :
    escBacktick (c :: r) = c :: escBacktick r := by
  simp [escBacktick, h]

/-- Interpolation escaping passes a non-dollar head through. -/
theorem escInterp_cons_ne_dollar (c : Char) (y : List Char) (h : c ≠ '$') :
    escInterp (c :: y) = c :: escInterp y := by
  cases y with
  | nil => rfl
  | cons c2 r =>
    simp only [escInterp]
    rw [if_neg (fun hcon => h hcon.1)]

/-- Interpolation escaping on a leading dollar-brace pair. -/
theorem escInterp_dollar_brace (y : List Char) :
    escInterp ('$' :: lbraceChar :: y) = '\\' :: '$' :: lbraceChar :: escInterp y := by
  simp [escInterp]

/-- Interpolation escaping passes a dollar through when no brace follows. -/
theorem escInterp_dollar_no_brace (y : List Char) (h : y.head? ≠ some lbraceChar) :
    escInterp ('$' :: y) = '$' :: escInterp y := by
  cases y with
  | nil => rfl
  | cons c2 r =>
    simp only [escInterp]
    rw [if_neg (fun hcon => h (by simp [hcon.2]))]

/-- The first two escaping passes never create a leading left brace. -/
theorem head_escBacktick_escBackslash (l : List Char) (h : l.head? ≠ some lbraceChar) :
    (escBacktick (escBackslash l)).head? ≠ some lbraceChar := by
  cases l with
  | nil => simp [escBackslash, escBacktick]
  | cons c r =>
    by_cases hbs : c = '\\'
    · subst hbs
      rw [escBackslash_cons_bs, escBacktick_cons_ne _ _ (by decide)]
      simp
      decide
    · rw [escBackslash_cons_ne c r hbs]
      by_cases hbt : c = btChar
      · subst hbt
        rw [escBacktick_cons_bt]
        simp
        decide
      · rw [escBacktick_cons_ne c _ hbt]
        simpa using h

/-- The interpolation pass never creates a leading left brace. -/
theorem head_escInterp (w : List Char) (h : w.head? ≠ some lbraceChar) :
    (escInterp w).head? ≠ some lbraceChar := by
  rcases w with _ | ⟨c1, w⟩
  · simp [escInterp]
  · rcases w with _ | ⟨c2, r⟩
    · simpa [escInterp] using h
    · simp only [escInterp]
      by_cases hc : c1 = '$' ∧ c2 = lbraceChar
      · rw [if_pos hc]
        simp
        decide
      · rw [if_neg hc]
        simpa using h

/-- Decoding a backslash escape of a special character. -/
theorem tmplDecode_escaped (c : Char) (z : List Char)
    (h : c = '\\' ∨ c = btChar ∨ c = '$' ∨ c = lbraceChar) :
    tmplDecode ('\\' :: c :: z) = (tmplDecode z).map (fun l => c :: l) := by
  simp only [tmplDecode]
  rw [if_true, if_pos h]

/-- Decoding an ordinary character that opens no escape, no delimiter
and no interpolation. -/
theorem tmplDecode_plain (c : Char) (z : List Char) (h1 : c ≠ '\\') (h2 : c ≠ btChar)
    (h3 : ¬(c = '$' ∧ z.head? = some lbraceChar)) :
    tmplDecode (c :: z) = (tmplDecode z).map (fun l => c :: l) := by
  rcases z with _ | ⟨c2, r⟩
  · simp [tmplDecode, h1, h2]
  · simp only [tmplDecode]
    rw [if_neg h1, if_neg h2, if_neg (fun hcon => h3 ⟨hcon.1, by simp [hcon.2]⟩)]

/-- Escaping then reading back as a template chunk is the identity:
the three passes protect every backslash, backtick and dollar-brace. -/
theorem tmplDecode_escape_aux :
    ∀ (n : Nat) (s : List Char), s.length ≤ n →
      tmplDecode (escInterp (escBacktick (escBackslash s))) = some s := by
  intro n
  induction n with
  | zero =>
    intro s hs
    rcases s with _ | ⟨c, r⟩
    · rfl
    · simp at hs
  | succ n ih =>
    intro s hs
    rcases s with _ | ⟨c, r⟩
    · rfl
    · have hr : r.length ≤ n := by
        simp only [List.length_cons] at hs
        omega
      by_cases hbs : c = '\\'
      · subst hbs
        rw [escBackslash_cons_bs, escBacktick_cons_ne _ _ (by decide),
          escBacktick_cons_ne _ _ (by decide),
          escInterp_cons_ne_dollar _ _ (by decide), escInterp_cons_ne_dollar _ _ (by decide),
          tmplDecode_escaped _ _ (Or.inl rfl), ih r hr]
        rfl
      · by_cases hbt : c = btChar
        · subst hbt
          rw [escBackslash_cons_ne _ _ hbs, escBacktick_cons_bt,
            escInterp_cons_ne_dollar _ _ (by decide), escInterp_cons_ne_dollar _ _ (by decide),
            tmplDecode_escaped _ _ (Or.inr (Or.inl rfl)), ih r hr]
          rfl
        · by_cases hd : c = '$'
          · subst hd
            rcases r with _ | ⟨c2, r2⟩
            · rfl
            · by_cases hlb : c2 = lbraceChar
              · subst hlb
                have hr2 : r2.length ≤ n := by
                  simp only [List.length_cons] at hr
                  omega
                rw [escBackslash_cons_ne _ _ hbs,
                  escBackslash_cons_ne _ _ (by decide : lbraceChar ≠ '\\'),
                  escBacktick_cons_ne _ _ (by decide : ('$' : Char) ≠ btChar),
                  escBacktick_cons_ne _ _ (by decide : lbraceChar ≠ btChar),
                  escInterp_dollar_brace,
                  tmplDecode_escaped _ _ (Or.inr (Or.inr (Or.inl rfl))),
                  tmplDecode_plain lbraceChar _ (by decide) (by decide)
                    (fun hcon => absurd hcon.1 (by decide)),
                  ih r2 hr2]
                rfl
              · have hhead : (c2 :: r2).head? ≠ some lbraceChar := by simpa using hlb
                rw [escBackslash_cons_ne _ _ hbs, escBacktick_cons_ne _ _ (by decide)]
                have hw : (escBacktick (escBackslash (c2 :: r2))).head? ≠ some lbraceChar :=
                  head_escBacktick_escBackslash _ hhead
                rw [escInterp_dollar_no_brace _ hw]
                have hz : (escInterp (escBacktick (escBackslash (c2 :: r2)))).head? ≠
                    some lbraceChar := head_escInterp _ hw
                rw [tmplDecode_plain '$' _ (by decide) (by decide) (fun hcon => hz hcon.2),
                  ih (c2 :: r2) hr]
                rfl
          · rw [escBackslash_cons_ne _ _ hbs, escBacktick_cons_ne _ _ hbt,
              escInterp_cons_ne_dollar _ _ hd,
              tmplDecode_plain c _ hbs hbt (fun hcon => hd hcon.1),
              ih r hr]
            rfl

/-- Prefixing the fixed fallback word yields an identifier head. -/
theorem startsWithIdentChar_form_append (x : String) :
    startsWithIdentChar ("Form" ++ x) = true := by
  have hdata : ("Form" ++ x).toList = 'F' :: 'o' :: 'r' :: 'm' :: x.toList := rfl
  unfold startsWithIdentChar
  rw [hdata]
  rfl

/-- Every output of `makeSafeComponentName` starts with a letter or
underscore. -/
theorem startsWithIdentChar_makeSafe (s : String) :
    startsWithIdentChar (makeSafeComponentName s) = true := by
  unfold makeSafeComponentName
  dsimp only
  by_cases h : startsWithIdentChar (if toPascalCase (safeIdentifier s) = "" then "GeneratedForm"
      else toPascalCase (safeIdentifier s)) = true
  · rw [if_pos h]
    exact h
  · rw [if_neg h]
    exact startsWithIdentChar_form_append _

/-- C9.  The exported component identifier always starts with a letter
or underscore (for the spec's `"3rd Party!"` example it is
`Form3rdParty`, and a title that strips to nothing falls back to
`GeneratedForm`); and `escapeTemplateString` output read back as a
template-literal chunk never terminates early on a backtick, never opens
an interpolation, and decodes to exactly the original text. -/
theorem c9_exporter_identifier_and_escaping :
    (∀ id title : String, startsWithIdentChar (exportComponentName id title) = true) ∧
    (∀ s : String, tmplDecode (escapeTemplateString s).toList = some s.toList) ∧
    makeSafeComponentName "3rd Party!" = "Form3rdParty" ∧
    makeSafeComponentName "!!!" = "GeneratedForm" := by
  refine ⟨?_, ?_, ?_, ?_⟩
  · intro id title
    exact startsWithIdentChar_makeSafe _
  · intro s
    exact tmplDecode_escape_aux s.toList.length s.toList (le_refl _)
  · decide
  · decide
